import Mathlib

/-!
Verification of the git-cliff core (git-cliff-core/src/release.rs and the
remote data model): the version-bump inference algorithm and the
remote-metadata reconciliation engine, shallowly embedded in Lean.

Strings are modelled as Lean `String`, with parsing machinery working on the
underlying `List Char`.  Fallible operations return an explicit result type.
-/

/-- Result of `Release::calculate_next_version*` (Rust `Result<String>` with the
single error kind that the function can produce, a semver parse error). -/
inductive VResult where
  | ok (s : String)
  | error
deriving DecidableEq, Repr

/-- Bump policy configuration (`Bump` in config.rs; the struct's two fields are
visible at the construction sites in src/git-cliff-core/src/release.rs and are
`Option<bool>`, read through `unwrap_or(true)`). -/
structure Bump where
  features_always_bump_minor : Option Bool := none
  breaking_always_bump_major : Option Bool := none
deriving DecidableEq

/-- Per-forge contributor data attached to a commit or to the release roster
(`RemoteContributor` in the remote module; field list per spec section 3 and
the literal values in the src tests). -/
structure RemoteContributor where
  username : Option String := none
  pr_title : Option String := none
  pr_number : Option Int := none
  pr_labels : List String := []
  is_first_time : Bool := false
deriving DecidableEq, Repr

instance : Inhabited RemoteContributor := ⟨{}⟩

/-- Modelled from the spec: `Commit` (crate commit.rs, not under src/): id,
message, and a per-forge `RemoteContributor` slot; a single representative
forge slot `github` stands for the identical per-forge fields. -/
structure Commit where
  id : String := ""
  message : String := ""
  github : RemoteContributor := {}
deriving DecidableEq, Repr

instance : Inhabited Commit := ⟨{}⟩

/-- Forge-agnostic remote commit (`RemoteCommit`): full SHA and optional
username. -/
structure RemoteCommit where
  id : String := ""
  username : Option String := none
deriving DecidableEq, Repr

/-- Forge-agnostic pull/merge request (`RemotePullRequest`). -/
structure RemotePullRequest where
  number : Int := 0
  title : Option String := none
  labels : List String := []
  merge_commit : Option String := none
deriving DecidableEq, Repr

/-- Release-level roster of contributors (`RemoteReleaseMetadata`). -/
structure RemoteReleaseMetadata where
  contributors : List RemoteContributor := []
deriving DecidableEq, Repr

/-- Representation of a release (release.rs lines 18-45), with the recursive
`previous` chain and one representative forge metadata slot. -/
inductive Release where
  | mk (version : Option String) (commits : List Commit) (commit_id : Option String)
      (timestamp : Int) (previous : Option Release) (github : RemoteReleaseMetadata)

/-- Release version, git tag. -/
def Release.version : Release → Option String
  | .mk v _ _ _ _ _ => v

/-- Commits made for the release. -/
def Release.commits : Release → List Commit
  | .mk _ c _ _ _ _ => c

/-- Previous release. -/
def Release.previous : Release → Option Release
  | .mk _ _ _ _ p _ => p

/-! ## Semantic-version parsing

Model of `semver::Version::parse` (the `semver` crate used by release.rs):
strict `MAJOR.MINOR.PATCH[-PRE][+BUILD]`, numeric identifiers without leading
zeros and below 2^64, prerelease/build identifiers being nonempty runs of
ASCII alphanumerics and hyphens, with all-numeric prerelease identifiers
forbidden leading zeros. -/

structure SemVer where
  major : Nat
  minor : Nat
  patch : Nat
  pre : List (List Char)
  build : List (List Char)
deriving DecidableEq, Repr

/-- Decimal value of a digit run. -/
def digitsVal (ds : List Char) : Nat :=
  ds.foldl (fun a c => a * 10 + (c.toNat - 48)) 0

/-- Parse a leading numeric identifier (no leading zero, bounded by u64),
returning the value and the unconsumed remainder. -/
def parseNumericId (cs : List Char) : Option (Nat × List Char) :=
  let digits := cs.takeWhile Char.isDigit
  let rest := cs.dropWhile Char.isDigit
  if digits.isEmpty then none
  else if decide (1 < digits.length) && (digits.head? == some '0') then none
  else if digitsVal digits < 2 ^ 64 then some (digitsVal digits, rest)
  else none

/-- Split a character list on the dot separator. -/
def splitOnDot : List Char → List (List Char)
  | [] => [[]]
  | '.' :: rest => [] :: splitOnDot rest
  | c :: rest =>
    match splitOnDot rest with
    | [] => [[c]]
    | g :: gs => (c :: g) :: gs

/-- A valid prerelease identifier: nonempty, alphanumeric or hyphen, and if all
digits then no leading zero. -/
def validPreId (id : List Char) : Bool :=
  !id.isEmpty && id.all (fun c => c.isAlphanum || c == '-') &&
    (!(id.all Char.isDigit) || !(decide (1 < id.length) && (id.head? == some '0')))

/-- A valid build identifier: nonempty, alphanumeric or hyphen. -/
def validBuildId (id : List Char) : Bool :=
  !id.isEmpty && id.all (fun c => c.isAlphanum || c == '-')

/-- Parse a full strict semantic version; `none` models a parse error. -/
def parseSemVer (cs : List Char) : Option SemVer :=
  match parseNumericId cs with
  | none => none
  | some (maj, r1) =>
    match r1 with
    | '.' :: r2 =>
      match parseNumericId r2 with
      | none => none
      | some (mino, r3) =>
        match r3 with
        | '.' :: r4 =>
          match parseNumericId r4 with
          | none => none
          | some (pat, r5) =>
            match r5 with
            | [] => some ⟨maj, mino, pat, [], []⟩
            | '-' :: r6 =>
              let preChars := r6.takeWhile (fun c => c != '+')
              let preIds := splitOnDot preChars
              if preIds.all validPreId then
                match r6.dropWhile (fun c => c != '+') with
                | [] => some ⟨maj, mino, pat, preIds, []⟩
                | '+' :: r7 =>
                  let bIds := splitOnDot r7
                  if bIds.all validBuildId then some ⟨maj, mino, pat, preIds, bIds⟩
                  else none
                | _ :: _ => none
              else none
            | '+' :: r6 =>
              let bIds := splitOnDot r6
              if bIds.all validBuildId then some ⟨maj, mino, pat, [], bIds⟩
              else none
            | _ :: _ => none
        | _ => none
    | _ => none

/-- Decimal digit characters of a natural number. -/
def natChars (n : Nat) : List Char := Nat.toDigits 10 n

/-- Join identifiers with dot separators. -/
def joinDots : List (List Char) → List Char
  | [] => []
  | [x] => x
  | x :: xs => x ++ '.' :: joinDots xs

/-- Render a semantic version back to characters (`Version::to_string`). -/
def renderSemVer (v : SemVer) : List Char :=
  natChars v.major ++ '.' :: natChars v.minor ++ '.' :: natChars v.patch
    ++ (if v.pre.isEmpty then [] else '-' :: joinDots v.pre)
    ++ (if v.build.isEmpty then [] else '+' :: joinDots v.build)

/-! ## Commit classification and version increment

Model of `next_version::VersionUpdater::increment`, per spec section 4.1
steps 4-6 and the behavior matrix pinned by the test tables in
src/git-cliff-core/src/release.rs (lines 182-294): conventional-commit
classification of each (already trimmed) message, breaking changes taking
precedence over features, the two policy flags only affecting pre-1.0
versions, and versions carrying a prerelease getting their prerelease
incremented instead. -/

/-- Parse a conventional-commit header `type[(scope)][!]: ...`, returning the
type and whether the breaking-change marker `!` is present. -/
def parseConvHeader (msg : List Char) : Option (List Char × Bool) :=
  let ty := msg.takeWhile Char.isAlpha
  if ty.isEmpty then none
  else
    let rest := msg.dropWhile Char.isAlpha
    match rest with
    | '(' :: r =>
      match r.dropWhile (fun c => c != ')') with
      | ')' :: '!' :: ':' :: _ => some (ty, true)
      | ')' :: ':' :: _ => some (ty, false)
      | _ => none
    | '!' :: ':' :: _ => some (ty, true)
    | ':' :: _ => some (ty, false)
    | _ => none

/-- A message marks a breaking change (exclamation mark before the colon). -/
def isBreaking (msg : List Char) : Bool :=
  match parseConvHeader msg with
  | some (_, b) => b
  | none => false

/-- A message is a feature commit (`feat` type). -/
def isFeat (msg : List Char) : Bool :=
  match parseConvHeader msg with
  | some (ty, _) => ty == "feat".data
  | none => false

/-- Increment the prerelease component: bump the last identifier when it is
numeric, otherwise append a fresh `1` identifier. -/
def bumpPreIds (ids : List (List Char)) : List (List Char) :=
  match ids.getLast? with
  | some lastId =>
    if !lastId.isEmpty && lastId.all Char.isDigit then
      ids.dropLast ++ [natChars (digitsVal lastId + 1)]
    else ids ++ [['1']]
  | none => [['1']]

/-- Compute the next version from the current one and the trimmed commit
messages under the two policy flags.  The major/minor bump conditions are the
ones pinned by the repository's test tables: a breaking change bumps major
when the current major is nonzero or the breaking-always flag is set; a minor
bump happens for a feature commit when the current major is nonzero or the
features-always flag is set, and also for a pre-1.0 breaking change when the
current minor is nonzero; everything else bumps patch.  A version already
carrying a prerelease gets its prerelease incremented instead. -/
def incrementVersion (featMinor breakMajor : Bool) (v : SemVer)
    (msgs : List (List Char)) : SemVer :=
  if !v.pre.isEmpty then { v with pre := bumpPreIds v.pre, build := [] }
  else
    let breaking := msgs.any isBreaking
    let feature := msgs.any isFeat
    if (decide (v.major ≠ 0) || breakMajor) && breaking then
      ⟨v.major + 1, 0, 0, [], []⟩
    else if ((decide (v.major ≠ 0) || featMinor) && feature) ||
        (decide (v.major = 0) && decide (v.minor ≠ 0) && breaking) then
      ⟨v.major, v.minor + 1, 0, [], []⟩
    else ⟨v.major, v.minor, v.patch + 1, [], []⟩

/-- Remove trailing whitespace from a message (Rust `str::trim_end`). -/
def trimEndChars (cs : List Char) : List Char :=
  (cs.reverse.dropWhile Char.isWhitespace).reverse

/-! ## Version calculation (release.rs lines 72-128) -/

/-- Number of segments of `version.split('.')` (one more than the dot count). -/
def split_dot_count (cs : List Char) : Nat := cs.count '.' + 1

/-- The prefix-extraction scan of release.rs lines 85-100: walk the characters
tracking whether the previous character was part of a numeric run; at every
transition into a numeric run, try to parse the remainder as semver, and on
success return the accumulated characters before it together with the parsed
version. -/
def scan_for_split (acc : List Char) (rest : List Char) (found_numeric : Bool) :
    Option (List Char × SemVer) :=
  match rest with
  | [] => none
  | c :: rest' =>
    if c.isDigit && !found_numeric then
      match parseSemVer (c :: rest') with
      | some v => some (acc, v)
      | none => scan_for_split (acc ++ [c]) rest' true
    else if !c.isDigit && found_numeric then scan_for_split (acc ++ [c]) rest' false
    else scan_for_split (acc ++ [c]) rest' found_numeric

/-- Model of `Release::calculate_next_version_with_config` (release.rs lines
72-128): read the previous release's version; if absent return "0.1.0" (the
source also emits a warning, a logging side effect that is not part of the
returned value); otherwise parse it as semver, retrying at every
non-numeric-to-numeric transition when the strict parse fails and the string
has at least two dot-separated segments; on success increment the parsed
version from the trailing-whitespace-trimmed commit messages and re-attach the
captured characters before the version, and otherwise propagate the parse
error. -/
def calculate_next_version_with_config (r : Release) (config : Bump) : VResult :=
  match r.previous.bind Release.version with
  | some version =>
    let cs := version.data
    let scanned : Option (List Char) × Option SemVer :=
      match parseSemVer cs with
      | some v => (none, some v)
      | none =>
        if 2 ≤ split_dot_count cs then
          match scan_for_split [] cs false with
          | some (p, v) => (some p, some v)
          | none => (none, none)
        else (none, none)
    match scanned with
    | (pre, some v) =>
      let next := incrementVersion (config.features_always_bump_minor.getD true)
        (config.breaking_always_bump_major.getD true) v
        (r.commits.map fun c => trimEndChars c.message.data)
      match pre with
      | some p => .ok (String.mk (p ++ renderSemVer next))
      | none => .ok (String.mk (renderSemVer next))
    | (_, none) => .error
  | none => .ok "0.1.0"

/-- Model of `Release::calculate_next_version` (release.rs lines 64-66): use
the default bump configuration (both fields unset, hence both read as true). -/
def calculate_next_version (r : Release) : VResult :=
  calculate_next_version_with_config r {}

/-! ## Remote-metadata reconciliation

Modelled from the spec: the body of the `update_release_metadata!` macro
(invoked at release.rs lines 47-57 to generate `update_github_metadata`,
`update_gitlab_metadata`, `update_gitea_metadata` and
`update_bitbucket_metadata`) lives in the crate's remote module, which is not
under src/.  The definitions below follow spec section 4.2 steps 1-5, with one
adjustment forced by the repository's own tests: the expected metadata of the
`update_gitlab_metadata` test (release.rs lines 909-941) pins
`is_first_time = false` for a roster entry whose username also occurs on a
remote commit that matches no commit of the release, so the roster flag is
modelled as true exactly when the entry's username does not occur among such
unmatched remote commits.  The reconciliation is total: it is a pure data
join with no error path. -/

/-- Lookup from commit SHA to remote commit, last-write-wins on duplicates. -/
def lookup_remote_commit (rcs : List RemoteCommit) (sha : String) :
    Option RemoteCommit :=
  (rcs.filter fun rc => rc.id == sha).getLast?

/-- Lookup from merge-commit SHA to pull request, skipping requests without a
merge commit, last-write-wins on duplicates. -/
def lookup_pull_request (prs : List RemotePullRequest) (sha : String) :
    Option RemotePullRequest :=
  (prs.filter fun pr => pr.merge_commit == some sha).getLast?

/-- Annotate one commit (spec section 4.2 step 3): set the username from the
matching remote commit, and the PR title, number and labels from the pull
request whose merge commit is this commit; missing matches leave the fields
unchanged, and `is_first_time` is never touched here. -/
def annotate_commit (rcs : List RemoteCommit) (prs : List RemotePullRequest)
    (c : Commit) : Commit :=
  let c1 := match lookup_remote_commit rcs c.id with
    | some rc => { c with github := { c.github with username := rc.username } }
    | none => c
  match lookup_pull_request prs c1.id with
  | some pr => { c1 with github := { c1.github with
      pr_title := pr.title, pr_number := some pr.number, pr_labels := pr.labels } }
  | none => c1

/-- Whether a commit carries any non-default PR fields. -/
def has_pr_fields (c : Commit) : Bool :=
  c.github.pr_title.isSome || c.github.pr_number.isSome ||
    !c.github.pr_labels.isEmpty

/-- PR fields taken by a roster entry for the username group `u`: those of the
first commit in order within the group that has any non-default PR fields, or
all defaults when none does (spec section 4.2 step 4). -/
def group_pr_fields (annotated : List Commit) (u : Option String) :
    Option String × Option Int × List String :=
  match (annotated.filter fun c => c.github.username == u).find? has_pr_fields with
  | some c => (c.github.pr_title, c.github.pr_number, c.github.pr_labels)
  | none => (none, none, [])

/-- Deduplicate, keeping the first occurrence of every element; `seen` holds
the elements already emitted. -/
def first_dedup_aux (seen : List (Option String)) :
    List (Option String) → List (Option String)
  | [] => []
  | u :: rest =>
    if u ∈ seen then first_dedup_aux seen rest
    else u :: first_dedup_aux (u :: seen) rest

/-- Insertion order of first appearance of each username (spec section 4.2
step 5). -/
def first_dedup (l : List (Option String)) : List (Option String) :=
  first_dedup_aux [] l

/-- Usernames of the remote commits whose SHA matches no commit of the
release. -/
def unmatched_usernames (commits : List Commit) (rcs : List RemoteCommit) :
    List (Option String) :=
  (rcs.filter fun rc => !(commits.any fun c => c.id == rc.id)).map
    fun rc => rc.username

/-- Aggregated contributor roster: one entry per distinct username of the
annotated commits (commits without a username forming one group), in first
appearance order, carrying the group's PR fields, flagged first-time exactly
when the username does not occur among the unmatched remote commits. -/
def build_roster (annotated : List Commit) (unmatched : List (Option String)) :
    List RemoteContributor :=
  (first_dedup (annotated.map fun c => c.github.username)).map fun u =>
    let f := group_pr_fields annotated u
    { username := u, pr_title := f.1, pr_number := f.2.1, pr_labels := f.2.2,
      is_first_time := decide (u ∉ unmatched) }

/-- Reconciliation of a release's commit list with a forge's raw commit and
pull-request lists (the generated `update_<forge>_metadata` functions):
returns the annotated commit list and the release metadata written into the
forge's slot. -/
def update_release_metadata (commits : List Commit) (rcs : List RemoteCommit)
    (prs : List RemotePullRequest) : List Commit × RemoteReleaseMetadata :=
  let annotated := commits.map (annotate_commit rcs prs)
  (annotated, ⟨build_roster annotated (unmatched_usernames commits rcs)⟩)

/-- Position `i` is a non-numeric-to-numeric transition of `cs`: the character
there is a digit and the previous character is not (at position zero the flag
`found0` plays the role of the previous character's digit-ness; the source
starts its scan with `found_numeric = false`). -/
def transition_at (cs : List Char) (found0 : Bool) (i : Nat) : Bool :=
  (cs.getD i ' ').isDigit &&
    (if i = 0 then !found0 else !(cs.getD (i - 1) ' ').isDigit)

/-! ## Concrete fixtures from the src tests

The release builder of the `bump_version` test (release.rs lines 150-180) and
the commit/remote data of the `update_github_metadata` and
`update_gitlab_metadata` tests (release.rs lines 318-944), after the per-forge
payloads are converted to the forge-agnostic `RemoteCommit` and
`RemotePullRequest` shapes exactly as remote/github.rs lines 80-98 and
remote/gitlab.rs lines 47-94 do. -/

/-- Release with the given previous version and commit messages, as built by
`build_release` in the src test. -/
def build_release (version : String) (msgs : List String) : Release :=
  .mk none (msgs.map fun m => { message := m }) none 0
    (some (.mk (some version) [] none 0 none {})) {}

def test_commits : List Commit := [
  { id := "1d244937ee6ceb8e0314a4a201ba93a7a61f2071", message := "add github integration" },
  { id := "21f6aa587fcb772de13f2fde0e92697c51f84162", message := "fix github integration" },
  { id := "35d8c6b6329ecbcf131d7df02f93c3bbc5ba5973", message := "update metadata" },
  { id := "4d3ffe4753b923f4d7807c490e650e6624a12074", message := "do some stuff" },
  { id := "5a55e92e5a62dc5bf9872ffb2566959fad98bd05", message := "alright" },
  { id := "6c34967147560ea09658776d4901709139b4ad66", message := "should be fine" }]

def github_remote_commits : List RemoteCommit := [
  { id := "1d244937ee6ceb8e0314a4a201ba93a7a61f2071", username := some "orhun" },
  { id := "21f6aa587fcb772de13f2fde0e92697c51f84162", username := some "orhun" },
  { id := "35d8c6b6329ecbcf131d7df02f93c3bbc5ba5973", username := some "nuhro" },
  { id := "4d3ffe4753b923f4d7807c490e650e6624a12074", username := some "awesome_contributor" },
  { id := "5a55e92e5a62dc5bf9872ffb2566959fad98bd05", username := some "orhun" },
  { id := "6c34967147560ea09658776d4901709139b4ad66", username := some "someone" },
  { id := "0c34967147560e809658776d4901709139b4ad68", username := some "idk" },
  { id := "kk34967147560e809658776d4901709139b4ad68", username := none },
  { id := "", username := none }]

def github_pull_requests : List RemotePullRequest := [
  { number := 42, title := some "1", labels := ["rust"],
    merge_commit := some "1d244937ee6ceb8e0314a4a201ba93a7a61f2071" },
  { number := 66, title := some "2", labels := ["rust"],
    merge_commit := some "21f6aa587fcb772de13f2fde0e92697c51f84162" },
  { number := 53, title := some "3", labels := ["deps"],
    merge_commit := some "35d8c6b6329ecbcf131d7df02f93c3bbc5ba5973" },
  { number := 1000, title := some "4", labels := ["deps"],
    merge_commit := some "4d3ffe4753b923f4d7807c490e650e6624a12074" },
  { number := 999999, title := some "5", labels := ["github"],
    merge_commit := some "5a55e92e5a62dc5bf9872ffb2566959fad98bd05" }]

def gitlab_remote_commits : List RemoteCommit := [
  { id := "1d244937ee6ceb8e0314a4a201ba93a7a61f2071", username := some "orhun" },
  { id := "21f6aa587fcb772de13f2fde0e92697c51f84162", username := some "orhun" },
  { id := "35d8c6b6329ecbcf131d7df02f93c3bbc5ba5973", username := some "nuhro" },
  { id := "4d3ffe4753b923f4d7807c490e650e6624a12074", username := some "awesome_contributor" },
  { id := "5a55e92e5a62dc5bf9872ffb2566959fad98bd05", username := some "orhun" },
  { id := "6c34967147560ea09658776d4901709139b4ad66", username := some "someone" },
  { id := "0c34967147560e809658776d4901709139b4ad68", username := some "idk" },
  { id := "kk34967147560e809658776d4901709139b4ad68", username := some "orhun" }]

def gitlab_merge_requests : List RemotePullRequest := [
  { number := 1, title := some "1", labels := ["rust"],
    merge_commit := some "1d244937ee6ceb8e0314a4a201ba93a7a61f2071" }]

/-! ## Theorems -/

/-- Validation against the src `bump_version` test, default-policy rows: the
model reproduces a representative sample of the expected versions (release.rs
lines 182-234). -/
theorem model_matches_bump_version_test_rows :
    calculate_next_version (build_release "1.0.0" ["feat: add xyz", "fix: fix xyz"]) = .ok "1.1.0"
    ∧ calculate_next_version (build_release "1.0.0" ["feat!: add xyz", "feat: zzz"]) = .ok "2.0.0"
    ∧ calculate_next_version (build_release "v100.0.0" ["feat!: something"]) = .ok "v101.0.0"
    ∧ calculate_next_version (build_release "v1.0.0-alpha.1" ["fix: minor"]) = .ok "v1.0.0-alpha.2"
    ∧ calculate_next_version (build_release "tauri-v1.5.4" ["feat: something"]) = .ok "tauri-v1.6.0"
    ∧ calculate_next_version (build_release "rocket/rocket-v4.0.0-rc.1" ["chore!: wow"]) = .ok "rocket/rocket-v4.0.0-rc.2"
    ∧ calculate_next_version (build_release "0.0.1" ["feat: add xyz", "fix: fix xyz"]) = .ok "0.1.0"
    ∧ calculate_next_version (build_release "0.1.0" ["feat!: add xyz", "feat: zzz"]) = .ok "1.0.0" := by
  decide

/-- C1 counterexample: the claim's expected value "0.1.1" disagrees with the
code; the repository's own test (release.rs line 243) expects "0.2.0" for this
exact input and policy, as the model computes. -/
theorem c1_counterexample :
    calculate_next_version_with_config (build_release "0.1.0" ["feat!: add xyz", "feat: zzz"])
      ⟨some false, some false⟩ ≠ .ok "0.1.1" := by
  decide

/-- C1 (amended): with features_always_bump_minor=false and
breaking_always_bump_major=false, inferring the next version from current
version "0.1.0" and the commit messages ["feat!: add xyz", "feat: zzz"]
returns exactly the string "0.2.0": the pre-1.0 breaking change bumps minor
because the current minor version is nonzero. -/
theorem c1_amended_pre_1_0_breaking_bumps_minor :
    calculate_next_version_with_config (build_release "0.1.0" ["feat!: add xyz", "feat: zzz"])
      ⟨some false, some false⟩ = .ok "0.2.0" := by
  decide

/-- C3: when the previous version is a non-numeric prefix followed by a valid
semver remainder, inference bumps only the remainder and re-attaches the
prefix unchanged: "foo/1.0.0" with ["feat: x", "fix: y"] gives "foo/1.1.0"
and "zzz-123/test/1.0.0" with ["fix: aaaaaa"] gives "zzz-123/test/1.0.1"
under the default policy. -/
theorem c3_version_prefix_preserved :
    calculate_next_version (build_release "foo/1.0.0" ["feat: x", "fix: y"]) = .ok "foo/1.1.0"
    ∧ calculate_next_version (build_release "zzz-123/test/1.0.0" ["fix: aaaaaa"])
      = .ok "zzz-123/test/1.0.1" := by
  decide

/-- C5: when the release has no previous release, version inference returns
exactly "0.1.0" and succeeds, for every commit list and every policy (the
source emits a warning, a logging side effect, and never an error). -/
theorem c5_no_previous_release_yields_0_1_0 (v : Option String) (commits : List Commit)
    (cid : Option String) (ts : Int) (gh : RemoteReleaseMetadata) (config : Bump) :
    calculate_next_version_with_config (.mk v commits cid ts none gh) config
      = .ok "0.1.0" := rfl

/-- C10: a previous release whose version field is None is treated exactly
like having no previous release: the previous-version lookup collapses both
cases and inference returns Ok "0.1.0" for every commit list and policy. -/
theorem c10_previous_without_version_yields_0_1_0 (v : Option String)
    (commits : List Commit) (cid : Option String) (ts : Int)
    (gh : RemoteReleaseMetadata) (config : Bump) (pc : List Commit)
    (pcid : Option String) (pts : Int) (pprev : Option Release)
    (pgh : RemoteReleaseMetadata) :
    calculate_next_version_with_config
      (.mk v commits cid ts (some (.mk none pc pcid pts pprev pgh)) gh) config
      = .ok "0.1.0" := rfl

/-- C9: version inference is invariant under trailing whitespace and newlines
on commit messages: two commit lists whose messages agree after trimming
trailing whitespace produce the same inferred version, for every previous
version and policy (the source trims each message with `trim_end` before
classification, release.rs line 113). -/
theorem c9_trim_invariant (v : Option String) (cid : Option String) (ts : Int)
    (p : Option Release) (gh : RemoteReleaseMetadata) (commits1 commits2 : List Commit)
    (config : Bump)
    (h : commits1.map (fun c => trimEndChars c.message.data)
        = commits2.map (fun c => trimEndChars c.message.data)) :
    calculate_next_version_with_config (.mk v commits1 cid ts p gh) config
      = calculate_next_version_with_config (.mk v commits2 cid ts p gh) config := by
  unfold calculate_next_version_with_config
  simp only [Release.previous, Release.commits, h]

/-- C9 witness: the commit messages "feat!: add xyz\n" and "feat!: add xyz"
differ only by a trailing newline and infer identically from "1.0.0". -/
theorem c9_witness :
    ([({ message := "feat!: add xyz\n" } : Commit)].map (fun c => trimEndChars c.message.data)
        = [({ message := "feat!: add xyz" } : Commit)].map (fun c => trimEndChars c.message.data))
    ∧ calculate_next_version_with_config
        (.mk none [{ message := "feat!: add xyz\n" }] none 0
          (some (.mk (some "1.0.0") [] none 0 none {})) {}) {}
      = calculate_next_version_with_config
        (.mk none [{ message := "feat!: add xyz" }] none 0
          (some (.mk (some "1.0.0") [] none 0 none {})) {}) {} :=
  ⟨by decide, c9_trim_invariant none none 0 (some (.mk (some "1.0.0") [] none 0 none {})) {}
    [{ message := "feat!: add xyz\n" }] [{ message := "feat!: add xyz" }] {} (by decide)⟩

/-- Base case of the transition predicate on a cons cell. -/
theorem transition_at_zero (c : Char) (rest : List Char) (f : Bool) :
    transition_at (c :: rest) f 0 = (c.isDigit && !f) := by
  simp [transition_at]

/-- Step case of the transition predicate on a cons cell: the head's
digit-ness becomes the previous-character flag for the tail. -/
theorem transition_at_succ (c : Char) (rest : List Char) (f : Bool) (j : Nat) :
    transition_at (c :: rest) f (j + 1) = transition_at rest c.isDigit j := by
  cases j with
  | zero => simp [transition_at]
  | succ k => simp [transition_at]

/-- Quantifying a property over all transition positions of a cons cell splits
into the head position and the tail positions. -/
theorem forall_trans_cons (c : Char) (rest : List Char) (f : Bool) (P : List Char → Prop) :
    (∀ i, i < (c :: rest).length → transition_at (c :: rest) f i = true → P ((c :: rest).drop i)) ↔
      (((c.isDigit && !f) = true → P (c :: rest)) ∧
        (∀ j, j < rest.length → transition_at rest c.isDigit j = true → P (rest.drop j))) := by
  constructor
  · intro h
    refine ⟨fun h0 => ?_, fun j hj ht => ?_⟩
    · have := h 0 (by simp) (by rw [transition_at_zero]; exact h0)
      simpa using this
    · have := h (j + 1) (by simpa using Nat.succ_lt_succ hj)
        (by rw [transition_at_succ]; exact ht)
      simpa using this
  · rintro ⟨h0, hs⟩ i hi ht
    match i with
    | 0 =>
      rw [transition_at_zero] at ht
      simpa using h0 ht
    | j + 1 =>
      rw [transition_at_succ] at ht
      exact hs j (by simpa using Nat.lt_of_succ_lt_succ hi) ht

/-- The prefix-extraction scan finds nothing exactly when the remainder at
every non-numeric-to-numeric transition fails to parse as semver. -/
theorem scan_eq_none_iff (rest : List Char) : ∀ (acc : List Char) (f : Bool),
    scan_for_split acc rest f = none ↔
      ∀ i, i < rest.length → transition_at rest f i = true →
        parseSemVer (rest.drop i) = none := by
  induction rest with
  | nil => intro acc f; simp [scan_for_split]
  | cons c rest ih =>
    intro acc f
    rw [forall_trans_cons c rest f (fun l => parseSemVer l = none)]
    rw [scan_for_split]
    by_cases hd : (c.isDigit && !f) = true
    · rw [if_pos hd]
      cases hp : parseSemVer (c :: rest) with
      | some v =>
        simp only [hp]
        constructor
        · intro h; exact absurd h (by simp)
        · rintro ⟨h0, _⟩; exact absurd (h0 hd) (by simp [hp])
      | none =>
        simp only [hp]
        have hc : c.isDigit = true := by
          cases hcd : c.isDigit with
          | false => rw [hcd] at hd; simp at hd
          | true => rfl
        rw [ih (acc ++ [c]) true]
        rw [hc]
        constructor
        · intro h; exact ⟨fun _ => trivial, h⟩
        · rintro ⟨_, h⟩; exact h
    · rw [if_neg hd]
      have hrec : (if (!c.isDigit && f) = true then scan_for_split (acc ++ [c]) rest false
          else scan_for_split (acc ++ [c]) rest f)
          = scan_for_split (acc ++ [c]) rest c.isDigit := by
        cases hcd : c.isDigit with
        | false =>
          cases hf : f with
          | false => simp [hcd, hf]
          | true => simp [hcd, hf]
        | true =>
          cases hf : f with
          | false => rw [hcd] at hd; rw [hf] at hd; simp at hd
          | true => simp [hcd, hf]
      rw [hrec, ih (acc ++ [c]) c.isDigit]
      constructor
      · intro h; exact ⟨fun h0 => absurd h0 hd, h⟩
      · rintro ⟨_, h⟩; exact h

/-- The remainder returned by the numeric-identifier parser is the input with
its leading digit run removed. -/
theorem parseNumericId_rest {cs : List Char} {n : Nat} {r : List Char}
    (h : parseNumericId cs = some (n, r)) : r = cs.dropWhile Char.isDigit := by
  simp only [parseNumericId] at h
  split_ifs at h with h1 h2 h3
  · simp only [Option.some.injEq, Prod.mk.injEq] at h
    exact h.2.symm

/-- A string that parses as a strict semantic version contains a dot. -/
theorem dot_mem_of_parseSemVer {cs : List Char} {v : SemVer}
    (h : parseSemVer cs = some v) : '.' ∈ cs := by
  unfold parseSemVer at h
  cases h1 : parseNumericId cs with
  | none => rw [h1] at h; exact absurd h (by simp)
  | some p =>
    obtain ⟨n, r1⟩ := p
    rw [h1] at h
    dsimp only at h
    have hr : r1 = cs.dropWhile Char.isDigit := parseNumericId_rest h1
    have hdot : '.' ∈ r1 := by
      split at h
      · exact List.mem_cons_self _ _
      · exact absurd h (by simp)
    rw [hr] at hdot
    exact (List.dropWhile_sublist Char.isDigit).subset hdot

/-- C6: version inference returns an error if and only if the previous version
string is present, fails strict semver parsing, and the remainder at every
non-numeric-to-numeric character transition also fails to parse as semver; in
every other case it returns Ok with a version string.  (When the string has
fewer than two dot-separated segments the source skips the retry scan, but
then every retry remainder is dot-free and could not parse anyway.) -/
theorem c6_error_iff (version : String) (v : Option String) (commits : List Commit)
    (cid : Option String) (ts : Int) (gh : RemoteReleaseMetadata)
    (pc : List Commit) (pcid : Option String) (pts : Int) (pprev : Option Release)
    (pgh : RemoteReleaseMetadata) (config : Bump) :
    calculate_next_version_with_config
        (.mk v commits cid ts (some (.mk (some version) pc pcid pts pprev pgh)) gh) config
        = .error
      ↔ (parseSemVer version.data = none ∧
        ∀ i, i < version.data.length → transition_at version.data false i = true →
          parseSemVer (version.data.drop i) = none) := by
  unfold calculate_next_version_with_config
  simp only [Release.previous, Release.version, Option.some_bind]
  cases hp : parseSemVer version.data with
  | some w => simp [hp]
  | none =>
    by_cases hd : 2 ≤ split_dot_count version.data
    · cases hs : scan_for_split [] version.data false with
      | some pv =>
        obtain ⟨p, w⟩ := pv
        simp only [hp, hs, hd, if_true, if_pos]
        constructor
        · intro h; exact absurd h (by simp)
        · rintro ⟨_, hall⟩
          have := (scan_eq_none_iff version.data [] false).mpr hall
          rw [hs] at this
          exact absurd this (by simp)
      | none =>
        have hall := (scan_eq_none_iff version.data [] false).mp hs
        simp only [hp, hs, hd, if_true]
        simp only [split_dot_count] at hd
        simp [hall]
        exact fun i hi => hall i hi
    · have hnd : ('.' : Char) ∉ version.data := by
        rw [split_dot_count] at hd
        have : version.data.count '.' = 0 := by omega
        exact List.count_eq_zero.mp this
      have hall : ∀ i, i < version.data.length → transition_at version.data false i = true →
          parseSemVer (version.data.drop i) = none := by
        intro i _ _
        cases hpp : parseSemVer (version.data.drop i) with
        | none => rfl
        | some w =>
          exact absurd (List.drop_subset i version.data (dot_mem_of_parseSemVer hpp)) hnd
      simp [hp, hd, hall]
      exact fun i hi => hall i hi

/-- C6 witness: the previous version "hello" fails the strict parse, has no
digit transitions to retry, and the call indeed errors. -/
theorem c6_witness :
    calculate_next_version_with_config
      (.mk none [] none 0 (some (.mk (some "hello") [] none 0 none {})) {}) {} = .error :=
  (c6_error_iff "hello" none [] none 0 {} [] none 0 none {} {}).mpr (by decide)

/-- Annotation never changes a commit's id. -/
theorem annotate_commit_id (rcs : List RemoteCommit) (prs : List RemotePullRequest)
    (c : Commit) : (annotate_commit rcs prs c).id = c.id := by
  unfold annotate_commit
  cases h1 : lookup_remote_commit rcs c.id with
  | none =>
    cases h2 : lookup_pull_request prs c.id with
    | none => simp [h1, h2]
    | some pr => simp [h1, h2]
  | some rc =>
    cases h2 : lookup_pull_request prs c.id with
    | none => simp [h1, h2]
    | some pr => simp [h1, h2]

/-- Annotation never touches the per-commit first-time flag. -/
theorem annotate_commit_is_first_time (rcs : List RemoteCommit)
    (prs : List RemotePullRequest) (c : Commit) :
    (annotate_commit rcs prs c).github.is_first_time = c.github.is_first_time := by
  unfold annotate_commit
  cases h1 : lookup_remote_commit rcs c.id with
  | none =>
    cases h2 : lookup_pull_request prs c.id with
    | none => simp [h1, h2]
    | some pr => simp [h1, h2]
  | some rc =>
    cases h2 : lookup_pull_request prs c.id with
    | none => simp [h1, h2]
    | some pr => simp [h1, h2]

/-- Annotating an already annotated commit changes nothing: the lookups key on
the id, which annotation preserves, and they write the same values again. -/
theorem annotate_commit_idem (rcs : List RemoteCommit) (prs : List RemotePullRequest)
    (c : Commit) :
    annotate_commit rcs prs (annotate_commit rcs prs c) = annotate_commit rcs prs c := by
  unfold annotate_commit
  cases h1 : lookup_remote_commit rcs c.id with
  | none =>
    cases h2 : lookup_pull_request prs c.id with
    | none => simp [h1, h2]
    | some pr => simp [h1, h2]
  | some rc =>
    cases h2 : lookup_pull_request prs c.id with
    | none => simp [h1, h2]
    | some pr => simp [h1, h2]

/-- A commit matched by neither lookup is left entirely unchanged. -/
theorem annotate_commit_unmatched (rcs : List RemoteCommit) (prs : List RemotePullRequest)
    (c : Commit) (h1 : lookup_remote_commit rcs c.id = none)
    (h2 : lookup_pull_request prs c.id = none) :
    annotate_commit rcs prs c = c := by
  unfold annotate_commit
  simp [h1, h2]

/-- Membership in the first-occurrence deduplication with an accumulator. -/
theorem mem_first_dedup_aux (a : Option String) :
    ∀ (l seen : List (Option String)),
      a ∈ first_dedup_aux seen l ↔ a ∈ l ∧ a ∉ seen := by
  intro l
  induction l with
  | nil => intro seen; simp [first_dedup_aux]
  | cons u rest ih =>
    intro seen
    by_cases hu : u ∈ seen
    · rw [show first_dedup_aux seen (u :: rest) = first_dedup_aux seen rest from by
        simp [first_dedup_aux, hu]]
      rw [ih seen]
      simp only [List.mem_cons]
      constructor
      · rintro ⟨hm, hs⟩; exact ⟨Or.inr hm, hs⟩
      · rintro ⟨hm | hm, hs⟩
        · exact absurd (hm ▸ hu) hs
        · exact ⟨hm, hs⟩
    · rw [show first_dedup_aux seen (u :: rest) = u :: first_dedup_aux (u :: seen) rest from by
        simp [first_dedup_aux, hu]]
      simp only [List.mem_cons, ih (u :: seen)]
      constructor
      · rintro (rfl | ⟨hm, hs⟩)
        · exact ⟨Or.inl rfl, hu⟩
        · exact ⟨Or.inr hm, fun hx => hs (Or.inr hx)⟩
      · rintro ⟨rfl | hm, hs⟩
        · exact Or.inl rfl
        · by_cases ha : a = u
          · exact Or.inl ha
          · exact Or.inr ⟨hm, fun hx => hx.elim ha hs⟩

/-- First-occurrence deduplication never repeats an element. -/
theorem nodup_first_dedup_aux :
    ∀ (l seen : List (Option String)), (first_dedup_aux seen l).Nodup := by
  intro l
  induction l with
  | nil => intro seen; simp [first_dedup_aux]
  | cons u rest ih =>
    intro seen
    by_cases hu : u ∈ seen
    · simpa [first_dedup_aux, hu] using ih seen
    · rw [show first_dedup_aux seen (u :: rest) = u :: first_dedup_aux (u :: seen) rest from by
        simp [first_dedup_aux, hu]]
      refine List.nodup_cons.mpr ⟨?_, ih (u :: seen)⟩
      intro hmem
      exact ((mem_first_dedup_aux u rest (u :: seen)).mp hmem).2 (List.mem_cons_self _ _)

/-- The usernames of the built roster are exactly the first-occurrence
deduplication of the annotated commits' usernames. -/
theorem build_roster_usernames (an : List Commit) (un : List (Option String)) :
    (build_roster an un).map (fun e => e.username)
      = first_dedup (an.map fun c => c.github.username) := by
  unfold build_roster
  rw [List.map_map]
  have : ((fun e : RemoteContributor => e.username) ∘ fun u =>
      ({ username := u, pr_title := (group_pr_fields an u).1,
         pr_number := (group_pr_fields an u).2.1, pr_labels := (group_pr_fields an u).2.2,
         is_first_time := decide (u ∉ un) } : RemoteContributor)) = fun u => u := by
    funext u; rfl
  rw [this, List.map_id']

/-- A duplicate-free list containing an element counts it exactly once. -/
theorem count_eq_one_of_nodup_mem {l : List (Option String)} {a : Option String}
    (hnd : l.Nodup) (hm : a ∈ l) : l.count a = 1 := by
  induction l with
  | nil => cases hm
  | cons b l ih =>
    rw [List.count_cons]
    rcases List.mem_cons.mp hm with rfl | hm2
    · have h0 : l.count a = 0 := List.count_eq_zero.mpr (List.nodup_cons.mp hnd).1
      simp [h0]
    · have hne : a ≠ b := fun h => (List.nodup_cons.mp hnd).1 (h ▸ hm2)
      rw [ih (List.nodup_cons.mp hnd).2 hm2]
      simp [Ne.symm hne]

/-- Validation against the src `update_gitlab_metadata` test (release.rs lines
659-941): the model reproduces the expected metadata literally, including the
`is_first_time = false` entry for orhun, whose username also appears on the
unmatched remote commit `kk34…`. -/
theorem model_matches_gitlab_metadata_test :
    (update_release_metadata test_commits gitlab_remote_commits gitlab_merge_requests).2
      = ⟨[{ username := some "orhun", pr_title := some "1", pr_number := some 1,
            pr_labels := ["rust"], is_first_time := false },
          { username := some "nuhro", is_first_time := true },
          { username := some "awesome_contributor", is_first_time := true },
          { username := some "someone", is_first_time := true }]⟩ := by
  decide

/-- Validation against the src `update_github_metadata` test (release.rs lines
318-601): the model reproduces the expected roster (the src test sorts by PR
number before comparing; here the entries appear in insertion order) with
every entry flagged first-time, and annotates the fifth commit exactly as the
test expects. -/
theorem model_matches_github_metadata_test :
    (update_release_metadata test_commits github_remote_commits github_pull_requests).2
      = ⟨[{ username := some "orhun", pr_title := some "1", pr_number := some 42,
            pr_labels := ["rust"], is_first_time := true },
          { username := some "nuhro", pr_title := some "3", pr_number := some 53,
            pr_labels := ["deps"], is_first_time := true },
          { username := some "awesome_contributor", pr_title := some "4",
            pr_number := some 1000, pr_labels := ["deps"], is_first_time := true },
          { username := some "someone", is_first_time := true }]⟩
    ∧ (update_release_metadata test_commits github_remote_commits github_pull_requests).1.getD 4 {}
      = { id := "5a55e92e5a62dc5bf9872ffb2566959fad98bd05", message := "alright",
          github := { username := some "orhun", pr_title := some "5",
                      pr_number := some 999999, pr_labels := ["github"],
                      is_first_time := false } } := by
  decide

/-- C2: for every reconciliation call, the roster contains exactly one entry
per distinct username of the release's commits (a single entry standing for
all commits without a username), ordered by first appearance among the
commits, and each entry carries the PR fields of the first commit in its group
having any non-default PR fields, or None/empty when none does. -/
theorem c2_roster_grouping (commits : List Commit) (rcs : List RemoteCommit)
    (prs : List RemotePullRequest) :
    ((update_release_metadata commits rcs prs).2.contributors.map (fun e => e.username)
        = first_dedup ((update_release_metadata commits rcs prs).1.map fun c => c.github.username))
    ∧ ((update_release_metadata commits rcs prs).2.contributors.map (fun e => e.username)).Nodup
    ∧ (∀ u, u ∈ (update_release_metadata commits rcs prs).2.contributors.map (fun e => e.username)
        ↔ u ∈ (update_release_metadata commits rcs prs).1.map fun c => c.github.username)
    ∧ ∀ e ∈ (update_release_metadata commits rcs prs).2.contributors,
        (e.pr_title, e.pr_number, e.pr_labels)
          = group_pr_fields ((update_release_metadata commits rcs prs).1) e.username := by
  unfold update_release_metadata
  dsimp only
  refine ⟨build_roster_usernames _ _, ?_, ?_, ?_⟩
  · rw [build_roster_usernames]
    exact nodup_first_dedup_aux _ _
  · intro u
    rw [build_roster_usernames]
    unfold first_dedup
    rw [mem_first_dedup_aux]
    simp
  · intro e he
    unfold build_roster at he
    obtain ⟨u, hu, rfl⟩ := List.mem_map.mp he
    rfl

/-- C2 witness: on the github test data the roster usernames are
duplicate-free and the first roster entry carries its group's PR fields. -/
theorem c2_witness :
    ((update_release_metadata test_commits github_remote_commits github_pull_requests).2.contributors.map
        (fun e => e.username)).Nodup
    ∧ (((update_release_metadata test_commits github_remote_commits github_pull_requests).2.contributors.getD 0 {}).pr_title,
        ((update_release_metadata test_commits github_remote_commits github_pull_requests).2.contributors.getD 0 {}).pr_number,
        ((update_release_metadata test_commits github_remote_commits github_pull_requests).2.contributors.getD 0 {}).pr_labels)
      = group_pr_fields ((update_release_metadata test_commits github_remote_commits github_pull_requests).1)
          (((update_release_metadata test_commits github_remote_commits github_pull_requests).2.contributors.getD 0 {}).username) := by
  have h := c2_roster_grouping test_commits github_remote_commits github_pull_requests
  exact ⟨h.2.1, h.2.2.2 _ (by decide)⟩

/-- C4 counterexample: on the gitlab test data of the repository (release.rs
lines 613-941) the roster is not all-first-time: the orhun entry carries
`is_first_time = false`, exactly as the src test expects at release.rs line
916, refuting the claim that every roster entry is flagged true
unconditionally. -/
theorem c4_counterexample :
    ((update_release_metadata test_commits gitlab_remote_commits gitlab_merge_requests).2.contributors.all
      fun e => e.is_first_time) = false := by
  decide

/-- C4 (amended): reconciliation leaves every per-commit is_first_time flag
unchanged — hence false whenever the commits enter with default fields — and
flags a roster entry first-time exactly when its username does not occur among
the remote commits that match no commit of the release. -/
theorem c4_amended_first_time_flags (commits : List Commit) (rcs : List RemoteCommit)
    (prs : List RemotePullRequest)
    (hflags : ∀ c ∈ commits, c.github.is_first_time = false) :
    (∀ c ∈ (update_release_metadata commits rcs prs).1, c.github.is_first_time = false)
    ∧ ∀ e ∈ (update_release_metadata commits rcs prs).2.contributors,
        e.is_first_time = decide (e.username ∉ unmatched_usernames commits rcs) := by
  constructor
  · intro c hc
    unfold update_release_metadata at hc
    dsimp only at hc
    obtain ⟨c0, hc0, rfl⟩ := List.mem_map.mp hc
    rw [annotate_commit_is_first_time]
    exact hflags c0 hc0
  · intro e he
    unfold update_release_metadata at he
    dsimp only at he
    unfold build_roster at he
    obtain ⟨u, hu, rfl⟩ := List.mem_map.mp he
    rfl

/-- C4 witness: on the gitlab test data the first annotated commit's
per-commit flag is false and the first roster entry's flag matches the
unmatched-usernames rule. -/
theorem c4_witness :
    (((update_release_metadata test_commits gitlab_remote_commits gitlab_merge_requests).1.getD 0 {}).github.is_first_time
      = false)
    ∧ ((update_release_metadata test_commits gitlab_remote_commits gitlab_merge_requests).2.contributors.getD 0 {}).is_first_time
      = decide (((update_release_metadata test_commits gitlab_remote_commits gitlab_merge_requests).2.contributors.getD 0 {}).username
          ∉ unmatched_usernames test_commits gitlab_remote_commits) := by
  have h := c4_amended_first_time_flags test_commits gitlab_remote_commits
    gitlab_merge_requests (by decide)
  exact ⟨h.1 _ (by decide), h.2 _ (by decide)⟩

/-- C7: reconciliation is total and an unmatched commit degrades gracefully: a
commit whose id matches no remote commit and no pull request keeps
username=None, pr_title=None, pr_number=None and empty pr_labels (given it
enters with default per-forge fields, as the commit loader constructs it), and
the no-username group appears exactly once in the roster. -/
theorem c7_unmatched_commit_degrades (commits : List Commit) (rcs : List RemoteCommit)
    (prs : List RemotePullRequest) (i : Nat) (hi : i < commits.length)
    (hdef : (commits.getD i {}).github = {})
    (hrc : ∀ rc ∈ rcs, rc.id ≠ (commits.getD i {}).id)
    (hpr : ∀ pr ∈ prs, pr.merge_commit ≠ some (commits.getD i {}).id) :
    (((update_release_metadata commits rcs prs).1.getD i {}).github.username = none
      ∧ ((update_release_metadata commits rcs prs).1.getD i {}).github.pr_title = none
      ∧ ((update_release_metadata commits rcs prs).1.getD i {}).github.pr_number = none
      ∧ ((update_release_metadata commits rcs prs).1.getD i {}).github.pr_labels = [])
    ∧ ((update_release_metadata commits rcs prs).2.contributors.map
        (fun e => e.username)).count none = 1 := by
  have hgd : commits.getD i {} = commits[i] := by
    rw [List.getD_eq_getElem?_getD, List.getElem?_eq_getElem hi]
    rfl
  have hl1 : lookup_remote_commit rcs (commits.getD i {}).id = none := by
    unfold lookup_remote_commit
    rw [List.filter_eq_nil_iff.mpr]
    · rfl
    · intro rc hm
      simpa using hrc rc hm
  have hl2 : lookup_pull_request prs (commits.getD i {}).id = none := by
    unfold lookup_pull_request
    rw [List.filter_eq_nil_iff.mpr]
    · rfl
    · intro pr hm
      simpa using hpr pr hm
  have hann : annotate_commit rcs prs (commits.getD i {}) = commits.getD i {} :=
    annotate_commit_unmatched rcs prs _ hl1 hl2
  have hout : (update_release_metadata commits rcs prs).1.getD i {} = commits.getD i {} := by
    unfold update_release_metadata
    dsimp only
    rw [List.getD_eq_getElem?_getD, List.getElem?_map, List.getElem?_eq_getElem hi]
    simp only [Option.map_some', Option.getD_some]
    rw [← hgd, hann]
  constructor
  · rw [hout, hdef]
    exact ⟨rfl, rfl, rfl, rfl⟩
  · have hmem : none ∈ (update_release_metadata commits rcs prs).1.map
        (fun c => c.github.username) := by
      refine List.mem_map.mpr ⟨commits.getD i {}, ?_, by rw [hdef]⟩
      unfold update_release_metadata
      dsimp only
      refine List.mem_map.mpr ⟨commits.getD i {}, ?_, hann⟩
      rw [hgd]
      exact commits.getElem_mem hi
    have hform : (update_release_metadata commits rcs prs).2.contributors
        = build_roster ((update_release_metadata commits rcs prs).1)
          (unmatched_usernames commits rcs) := by
      unfold update_release_metadata
      dsimp only
    have hnd : ((update_release_metadata commits rcs prs).2.contributors.map
        (fun e => e.username)).Nodup := by
      rw [hform, build_roster_usernames]
      exact nodup_first_dedup_aux _ _
    have hm2 : none ∈ (update_release_metadata commits rcs prs).2.contributors.map
        (fun e => e.username) := by
      rw [hform, build_roster_usernames]
      unfold first_dedup
      rw [mem_first_dedup_aux]
      exact ⟨hmem, by simp⟩
    exact count_eq_one_of_nodup_mem hnd hm2

/-- C7 witness: a single commit with no remote data at all keeps its default
fields and forms the single no-username roster entry. -/
theorem c7_witness :
    (((update_release_metadata [{ id := "abc", message := "m" }] [] []).1.getD 0 {}).github.username = none
      ∧ ((update_release_metadata [{ id := "abc", message := "m" }] [] []).1.getD 0 {}).github.pr_title = none
      ∧ ((update_release_metadata [{ id := "abc", message := "m" }] [] []).1.getD 0 {}).github.pr_number = none
      ∧ ((update_release_metadata [{ id := "abc", message := "m" }] [] []).1.getD 0 {}).github.pr_labels = [])
    ∧ ((update_release_metadata [{ id := "abc", message := "m" }] [] []).2.contributors.map
        (fun e => e.username)).count none = 1 :=
  c7_unmatched_commit_degrades [{ id := "abc", message := "m" }] [] [] 0
    (by decide) (by decide) (by decide) (by decide)

/-- C8: reconciliation is idempotent: re-running it on the already annotated
commit list with identical remote inputs reproduces the same annotated
commits and the same metadata (which subsumes the re-run on a commit list
reset to its pre-reconciliation state, a pure recomputation). -/
theorem c8_reconcile_idempotent (commits : List Commit) (rcs : List RemoteCommit)
    (prs : List RemotePullRequest) :
    update_release_metadata ((update_release_metadata commits rcs prs).1) rcs prs
      = update_release_metadata commits rcs prs := by
  unfold update_release_metadata
  dsimp only
  rw [List.map_map]
  have h1 : commits.map (annotate_commit rcs prs ∘ annotate_commit rcs prs)
      = commits.map (annotate_commit rcs prs) :=
    List.map_congr_left fun a _ => annotate_commit_idem rcs prs a
  rw [h1]
  have h2 : unmatched_usernames (commits.map (annotate_commit rcs prs)) rcs
      = unmatched_usernames commits rcs := by
    unfold unmatched_usernames
    congr 1
    apply List.filter_congr
    intro rc _
    rw [List.any_map]
    have : ((fun c : Commit => c.id == rc.id) ∘ annotate_commit rcs prs)
        = fun c : Commit => c.id == rc.id := by
      funext c
      simp [Function.comp, annotate_commit_id]
    rw [this]
  rw [h2]
